import Mathlib

/-!
Verification of skaslev/kubectl-watch against its specification.

Shallow embedding of the core pipeline, translated from the Go sources:
- `cmd/kubectl-watch/main.go`: `getKey`, `processEvent`, `watchResource`,
  `flushEvents`, `main`;
- `filter.go`: `NewFilter`, `countPrefix`;
- `formatter.go`: `Event`, `EventFormatter`, `TraceEventFormatter`.

Objects (`unstructured.Unstructured`) are modelled as their metadata fields
(namespace, name, apiVersion, kind) plus the remaining document content as an
association list.  The diff engine (gojsondiff, an external collaborator
consumed as a black box) is modelled per the spec's contract: two states are
"modified" iff they are not bit-identical; rendering is a parameter that may
fail, mirroring `formatter.Format`'s error return.  `time.Time` timestamps are
modelled as nanoseconds (`Nat`).  Channels, being consumed sequentially, are
modelled as the lists of values they deliver.
-/

set_option autoImplicit false

namespace KubectlWatch

/-- Model of `unstructured.Unstructured`: the object's metadata accessors
(`GetNamespace`, `GetName`, `GetAPIVersion`, `GetKind`) plus the rest of the
JSON document as a list of fields. -/
structure Unstructured where
  ns : String
  name : String
  apiVersion : String
  kind : String
  content : List (String × String)
deriving DecidableEq

/-- `emptyUnstructured` from main.go: an object whose document is the empty map. -/
def emptyUnstructured : Unstructured := ⟨"", "", "", "", []⟩

/-- Model of Go `strings.ToLower` (on the basic-latin range, which is all the
program lowercases: resource kind names). -/
def strToLower (s : String) : String := ⟨s.data.map Char.toLower⟩

/-- `getKey` from main.go: namespace and `/` when the namespace is non-empty,
then the name, a space, the apiVersion and `/` when non-empty, then the
lowercased kind. -/
def getKey (o : Unstructured) : String :=
  (if o.ns.length ≠ 0 then o.ns ++ "/" else "")
    ++ o.name ++ " "
    ++ (if o.apiVersion.length ≠ 0 then o.apiVersion ++ "/" else "")
    ++ strToLower o.kind

/-- The SnapshotCache `map[string]*unstructured.Unstructured`, as an
association list with unique keys. -/
abbrev Cache := List (String × Unstructured)

/-- Map lookup `cache[key]`. -/
def cacheGet : Cache → String → Option Unstructured
  | [], _ => none
  | (k, v) :: rest, key => if k = key then some v else cacheGet rest key

/-- Map update `cache[key] = v` (replaces the binding if present). -/
def cacheInsert : Cache → String → Unstructured → Cache
  | [], key, v => [(key, v)]
  | (k, w) :: rest, key, v =>
    if k = key then (k, v) :: rest else (k, w) :: cacheInsert rest key v

/-- Map deletion `delete(cache, key)`. -/
def cacheErase : Cache → String → Cache
  | [], _ => []
  | (k, w) :: rest, key =>
    if k = key then cacheErase rest key else (k, w) :: cacheErase rest key

/-- `watch.EventType`: `Error` stands for the `default:` arm of the switch in
`processEvent` (the error type and any unknown type). -/
inductive WatchEventType where
  | Added
  | Modified
  | Deleted
  | Bookmark
  | Error
deriving DecidableEq

/-- `Event` from formatter.go: `{Timestamp time.Time; Name string; Data string}`,
with the timestamp as nanoseconds. -/
structure Event where
  Timestamp : Nat
  Name : String
  Data : String
deriving DecidableEq

/-- The Diff Engine collaborator's `Modified()` verdict on
`CompareObjects(old.Object, new.Object)`: per the spec's contract, two states
differ iff they are not bit-identical (the cache stores the literal last-seen
structure, not a normalized form). -/
def diffModified (old new : Unstructured) : Bool := decide (old ≠ new)

/-- The rendering half of the Diff Engine collaborator:
`NewAsciiFormatter(old.Object, cfg).Format(diff)`, which may fail with an
error.  Kept as a parameter since it is an external black box. -/
abbrev RenderFn := Unstructured → Unstructured → Except Unit String

/-- Lines 103-115 of `processEvent`: compare `(old, new)`, suppress when not
modified, render (a render error is logged and yields no event), otherwise
emit the ChangeEvent.  The cache passed in was already updated. -/
def finishDiff (render : RenderFn) (now : Nat) (key : String)
    (old new : Unstructured) (cache : Cache) : Option Event × Cache :=
  if !diffModified old new then (none, cache)
  else
    match render old new with
    | Except.error _ => (none, cache)
    | Except.ok text => (some ⟨now, key, text⟩, cache)

/-- `processEvent` from main.go, parameterised by the global `namespaceFilter`
and the diff-rendering collaborator.  Returns the emitted event (if any) and
the updated cache. -/
def processEvent (nsFilter : String → Bool) (render : RenderFn) (now : Nat)
    (etype : WatchEventType) (obj : Unstructured) (cache : Cache) :
    Option Event × Cache :=
  match etype with
  | .Error => (none, cache)
  | _ =>
    if !nsFilter obj.ns then (none, cache)
    else
      let key := getKey obj
      let old := (cacheGet cache key).getD emptyUnstructured
      if etype = .Deleted then
        finishDiff render now key obj emptyUnstructured (cacheErase cache key)
      else
        finishDiff render now key old obj (cacheInsert cache key obj)

/-! ### Name Filter (filter.go) -/

/-- `countPrefix` from filter.go: the number of leading occurrences of `c`. -/
def countLeadingAux (c : Char) : List Char → Nat
  | [] => 0
  | x :: xs => if x = c then countLeadingAux c xs + 1 else 0

/-- `countPrefix(name, ch)` on the string's characters. -/
def countLeading (s : String) (c : Char) : Nat := countLeadingAux c s.data

/-- `name[count:]`: drop the first `n` characters. -/
def dropChars (s : String) (n : Nat) : String := ⟨s.data.drop n⟩

/-- The two `sets.String` built by `NewFilter`. -/
structure Filter where
  includeSet : List String
  excludeSet : List String
deriving DecidableEq

/-- `sets.String.Insert`: add a name, keeping set semantics. -/
def setInsert (s : List String) (n : String) : List String :=
  if n ∈ s then s else n :: s

/-- One iteration of the loop in `NewFilter`: count leading `!` markers, strip
them, and route the stripped name by parity. -/
def filterStep (f : Filter) (pat : String) : Filter :=
  let count := countLeading pat '!'
  let name := dropChars pat count
  if count % 2 = 0 then ⟨setInsert f.includeSet name, f.excludeSet⟩
  else ⟨f.includeSet, setInsert f.excludeSet name⟩

/-- The loop of `NewFilter` over the pattern list. -/
def newFilterAux (f : Filter) : List String → Filter
  | [] => f
  | pat :: rest => newFilterAux (filterStep f pat) rest

/-- `NewFilter` from filter.go (the two sets the returned closure captures). -/
def NewFilter (names : List String) : Filter := newFilterAux ⟨[], []⟩ names

/-- The closure returned by `NewFilter`: reject when the include set is
non-empty and misses the name, reject when the exclude set is non-empty and
holds the name, accept otherwise. -/
def filterMatches (f : Filter) (name : String) : Bool :=
  if f.includeSet.length ≠ 0 ∧ name ∉ f.includeSet then false
  else if f.excludeSet.length ≠ 0 ∧ name ∈ f.excludeSet then false
  else true

/-! ### Formatters (formatter.go) -/

/-- The `EventFormatter` interface. -/
structure EventFormatter where
  Preamble : String
  Epilogue : String
  Format : Event → String

/-- Go `%f` (6 decimal places) applied to `float64(ns)/1000` — the microsecond
timestamp of the trace record — computed exactly (float64 rounding at very
large magnitudes is not modelled). -/
def goFloatMicros (ns : Nat) : String :=
  let fracStr := toString ((ns % 1000) * 1000)
  toString (ns / 1000) ++ "." ++ ⟨List.replicate (6 - fracStr.length) '0'⟩ ++ fracStr

/-- Go `%q` on a string: double-quote it, escaping the common escapes. -/
def goQuoteChar (c : Char) : String :=
  if c = '"' then "\\\""
  else if c = '\\' then "\\\\"
  else if c = '\n' then "\\n"
  else if c = '\t' then "\\t"
  else if c = '\r' then "\\r"
  else String.singleton c

/-- Go `%q` quoting of a string value. -/
def goQuote (s : String) : String :=
  "\"" ++ String.join (s.data.map goQuoteChar) ++ "\""

/-- `TraceEventFormatter` from formatter.go: preamble `"[\n"`, epilogue
`"]\n"`, and per event one trace record terminated by a comma and newline. -/
def TraceEventFormatter : EventFormatter :=
  ⟨"[\n", "]\n", fun e =>
    "\x7b\"ts\": " ++ goFloatMicros e.Timestamp
      ++ ", \"name\": " ++ goQuote e.Name
      ++ ", \"ph\": \"i\", \"pid\": 1, \"tid\": 1, \"s\": \"t\", \"args\": ["
      ++ goQuote e.Data ++ "]\x7d,\n"⟩

/-! ### Printer shutdown (main.go) -/

/-- `flushEvents` from main.go: after cancellation, repeatedly perform a
non-blocking receive from the output channel and print, returning as soon as
the channel is empty.  The channel's buffered contents are the input list; the
result is the sequence of strings printed. -/
def flushEvents (format : Event → String) : List Event → List String
  | [] => []
  | e :: rest => format e :: flushEvents format rest

/-- The tail of `main`: after cancellation, the drain pass followed by the
epilogue — the full sequence of prints issued after the blocking print loop
exits. -/
def mainShutdown (F : EventFormatter) (buffered : List Event) : List String :=
  flushEvents F.Format buffered ++ [F.Epilogue]

/-- The whole output of `main`'s printing phase: preamble, the events printed
by the blocking loop, the drained events, the epilogue. -/
def mainOutput (F : EventFormatter) (printed buffered : List Event) : String :=
  F.Preamble ++ String.join (printed.map F.Format)
    ++ String.join (flushEvents F.Format buffered) ++ F.Epilogue

/-! ### Watch-open retry loop (`watchResource`, main.go) -/

/-- Classification of a failed `Watch` call inside the poll condition:
`notFound` (`errors.IsNotFound`), `methodNotSupported`
(`errors.IsMethodNotSupported`), `waitTimeout` (`wait.ErrWaitTimeout`, the
poll observing the stop channel), or any other error. -/
inductive WatchError where
  | notFound
  | methodNotSupported
  | waitTimeout
  | other (msg : String)
deriving DecidableEq

/-- The logging guard in `watchResource`:
`err != wait.ErrWaitTimeout && !errors.IsMethodNotSupported(err)`. -/
def shouldLogWatchError : WatchError → Bool
  | .waitTimeout => false
  | .methodNotSupported => false
  | _ => true

/-- The interval (seconds) passed to `wait.PollImmediateUntil` in
`watchResource`: `time.Second`. -/
def watchPollIntervalSeconds : Nat := 1

/-- Outcome of the connect phase of `watchResource` for one resource type. -/
inductive ConnectResult where
  | connected
  | stopped (logged : Bool)
  | retrying
deriving DecidableEq

/-- The connect phase of `watchResource`: the input lists the outcome of each
successive `Watch` attempt (`none` = a stream opened, `some e` = failure `e`).
`IsNotFound` failures make the poll condition return `(false, nil)` so the
poll retries after the fixed interval; a success completes the poll; any other
error aborts the poll and the loop returns, logging exactly when
`shouldLogWatchError` holds.  An exhausted list means every attempt so far was
`notFound` and the loop is still retrying. -/
def watchConnect : List (Option WatchError) → ConnectResult
  | [] => .retrying
  | none :: _ => .connected
  | some .notFound :: rest => watchConnect rest
  | some e :: _ => .stopped (shouldLogWatchError e)

/-! ### Concrete sample inputs used by witnesses and counterexamples -/

/-- A namespace filter accepting everything (`NewFilter nil`'s behaviour). -/
def allowAll : String → Bool := fun _ => true

/-- A rendering collaborator that always succeeds. -/
def renderOk : RenderFn := fun _ _ => Except.ok "d"

/-- A rendering collaborator that always fails. -/
def renderErr : RenderFn := fun _ _ => Except.error ()

/-- A cluster-scoped object named `x` with empty kind and apiVersion. -/
def sampleObj : Unstructured := ⟨"", "x", "", "", []⟩

/-! ### Helper lemmas about the cache and the diff step -/

theorem cacheGet_cacheInsert (c : Cache) (k : String) (v : Unstructured) :
    cacheGet (cacheInsert c k v) k = some v := by
  induction c with
  | nil => simp [cacheInsert, cacheGet]
  | cons hd tl ih =>
    obtain ⟨k', v'⟩ := hd
    by_cases hk : k' = k
    · subst hk
      simp [cacheInsert, cacheGet]
    · simp [cacheInsert, cacheGet, hk, ih]

theorem finishDiff_snd (r : RenderFn) (now : Nat) (key : String)
    (a b : Unstructured) (c : Cache) : (finishDiff r now key a b c).2 = c := by
  unfold finishDiff
  split
  · rfl
  · split <;> rfl

theorem diffModified_self (o : Unstructured) : diffModified o o = false := by
  simp [diffModified]

theorem finishDiff_self_fst (r : RenderFn) (now : Nat) (key : String)
    (o : Unstructured) (c : Cache) : (finishDiff r now key o o c).1 = none := by
  simp [finishDiff, diffModified_self]

theorem processEvent_nofilter (f : String → Bool) (r : RenderFn) (t : Nat)
    (ty : WatchEventType) (o : Unstructured) (c : Cache) (hf : f o.ns = false) :
    processEvent f r t ty o c = (none, c) := by
  cases ty <;> simp [processEvent, hf]

theorem processEvent_addmod_snd (f : String → Bool) (r : RenderFn) (t : Nat)
    (o : Unstructured) (c : Cache) (ty : WatchEventType)
    (h : ty = .Added ∨ ty = .Modified) (hf : f o.ns = true) :
    (processEvent f r t ty o c).2 = cacheInsert c (getKey o) o := by
  rcases h with h | h <;> subst h <;> simp [processEvent, hf, finishDiff_snd]

/-! ### Claim C1 — the delete branch of the Diff & Change Cache Engine -/

/-- The Diff & Change Cache Engine's delete handling as claim C1 words it
(following the spec, for comparison with `processEvent`): `old` is the state
looked up in the cache (EmptyState if absent), `new` is EmptyState, and the
key is removed from the cache. -/
def processEventClaimC1 (nsFilter : String → Bool) (render : RenderFn) (now : Nat)
    (etype : WatchEventType) (obj : Unstructured) (cache : Cache) :
    Option Event × Cache :=
  match etype with
  | .Error => (none, cache)
  | _ =>
    if !nsFilter obj.ns then (none, cache)
    else
      let key := getKey obj
      let old := (cacheGet cache key).getD emptyUnstructured
      if etype = .Deleted then
        finishDiff render now key old emptyUnstructured (cacheErase cache key)
      else
        finishDiff render now key old obj (cacheInsert cache key obj)

/-- C1 counterexample: on a delete event for an object absent from the cache,
the code diffs the incoming object against EmptyState and emits a ChangeEvent,
whereas the claim's reading (old = cache lookup = EmptyState, new = EmptyState)
would suppress it — the two computations disagree at this concrete input. -/
theorem C1_counterexample :
    processEvent allowAll renderOk 0 .Deleted sampleObj []
      ≠ processEventClaimC1 allowAll renderOk 0 .Deleted sampleObj [] := by
  decide

/-- C1 (amended): for every delete event that passes the namespace filter, the
diff is computed with old = the incoming object's state (the cache lookup is
discarded) and new = EmptyState, and the key is removed from the cache. -/
theorem C1_amended (f : String → Bool) (r : RenderFn) (now : Nat)
    (o : Unstructured) (c : Cache) (hf : f o.ns = true) :
    (processEvent f r now .Deleted o c).2 = cacheErase c (getKey o)
      ∧ (processEvent f r now .Deleted o c).1
        = (if diffModified o emptyUnstructured then
             match r o emptyUnstructured with
             | Except.error _ => none
             | Except.ok text => some ⟨now, getKey o, text⟩
           else none) := by
  constructor
  · simp [processEvent, hf, finishDiff_snd]
  · by_cases hd : diffModified o emptyUnstructured
    · simp only [processEvent, hf]
      simp [finishDiff, hd]
      cases r o emptyUnstructured <;> simp
    · simp only [processEvent, hf]
      simp [finishDiff, hd]

/-- C1 amended witness: the amended delete characterization at a concrete
input (empty cache, delete of `sampleObj`). -/
theorem C1_amended_witness :
    allowAll sampleObj.ns = true
      ∧ ((processEvent allowAll renderOk 0 .Deleted sampleObj []).2
           = cacheErase [] (getKey sampleObj)
         ∧ (processEvent allowAll renderOk 0 .Deleted sampleObj []).1
           = (if diffModified sampleObj emptyUnstructured then
                match renderOk sampleObj emptyUnstructured with
                | Except.error _ => none
                | Except.ok text => some ⟨0, getKey sampleObj, text⟩
              else none)) :=
  ⟨rfl, C1_amended allowAll renderOk 0 sampleObj [] rfl⟩

/-! ### Claim C3 — bookmark and unknown event types -/

/-- C3 counterexample: a bookmark event carrying an object that passes the
namespace filter is not ignored — at this concrete input it both updates the
cache and produces a ChangeEvent, refuting "no ChangeEvent and cache
unchanged". -/
theorem C3_counterexample :
    processEvent allowAll renderOk 0 .Bookmark sampleObj []
      ≠ (none, ([] : Cache)) := by
  decide

/-- C3 (amended): events of unknown type (the switch's default arm) are
ignored structurally — no ChangeEvent, cache unchanged — but bookmark events
are processed exactly like add events: the cache is updated to the bookmark's
object and a ChangeEvent is produced whenever the diff reports modification. -/
theorem C3_amended (f : String → Bool) (r : RenderFn) (t : Nat)
    (o : Unstructured) (c : Cache) :
    processEvent f r t .Error o c = (none, c)
      ∧ processEvent f r t .Bookmark o c = processEvent f r t .Added o c :=
  ⟨rfl, rfl⟩

/-! ### Claim C5 — diff suppression of a bit-identical resend -/

/-- C5: processing the same add/modify event twice in succession produces no
second ChangeEvent — after the first processing the cache holds the incoming
state, so the second diff compares bit-identical states and is suppressed. -/
theorem C5_theorem (f : String → Bool) (r : RenderFn) (t₁ t₂ : Nat)
    (ty : WatchEventType) (o : Unstructured) (c : Cache)
    (h : ty = .Added ∨ ty = .Modified) :
    (processEvent f r t₂ ty o (processEvent f r t₁ ty o c).2).1 = none := by
  by_cases hf : f o.ns = true
  · rw [processEvent_addmod_snd f r t₁ o c ty h hf]
    rcases h with h | h <;> subst h <;>
      simp [processEvent, hf, cacheGet_cacheInsert, finishDiff_self_fst]
  · have hf' : f o.ns = false := by simpa using hf
    rw [processEvent_nofilter f r t₁ ty o c hf',
        processEvent_nofilter f r t₂ ty o c hf']

/-- C5 witness: resending `sampleObj` as an add event after it was just added
yields no event. -/
theorem C5_witness :
    (WatchEventType.Added = WatchEventType.Added
        ∨ WatchEventType.Added = WatchEventType.Modified)
      ∧ (processEvent allowAll renderOk 1 .Added sampleObj
          (processEvent allowAll renderOk 0 .Added sampleObj []).2).1 = none :=
  ⟨Or.inl rfl, C5_theorem allowAll renderOk 0 1 .Added sampleObj [] (Or.inl rfl)⟩

/-! ### Claim C9 — the cache is updated whether or not an event is emitted -/

/-- C9: for every add or modify event passing the namespace filter, the
resulting cache holds the incoming state under the object's key, for every
rendering collaborator — in particular also when rendering fails or the diff
reports no modification, so caching is not atomic with emitting. -/
theorem C9_theorem (f : String → Bool) (r : RenderFn) (t : Nat)
    (ty : WatchEventType) (o : Unstructured) (c : Cache)
    (h : ty = .Added ∨ ty = .Modified) (hf : f o.ns = true) :
    (processEvent f r t ty o c).2 = cacheInsert c (getKey o) o
      ∧ cacheGet (processEvent f r t ty o c).2 (getKey o) = some o := by
  have h2 := processEvent_addmod_snd f r t o c ty h hf
  exact ⟨h2, by rw [h2]; exact cacheGet_cacheInsert c (getKey o) o⟩

/-- C9 witness: a modify event whose rendering fails still updates the cache. -/
theorem C9_witness :
    (WatchEventType.Modified = WatchEventType.Added
        ∨ WatchEventType.Modified = WatchEventType.Modified)
      ∧ allowAll sampleObj.ns = true
      ∧ ((processEvent allowAll renderErr 0 .Modified sampleObj []).2
           = cacheInsert [] (getKey sampleObj) sampleObj
         ∧ cacheGet (processEvent allowAll renderErr 0 .Modified sampleObj []).2
             (getKey sampleObj) = some sampleObj) :=
  ⟨Or.inr rfl, rfl,
    C9_theorem allowAll renderErr 0 .Modified sampleObj [] (Or.inr rfl) rfl⟩

/-! ### Helper lemmas about the Name Filter -/

theorem setInsert_self (s : List String) (n : String) : n ∈ setInsert s n := by
  unfold setInsert
  split
  · assumption
  · exact List.mem_cons_self n s

theorem setInsert_mono {s : List String} {m : String} (n : String) (h : m ∈ s) :
    m ∈ setInsert s n := by
  unfold setInsert
  split
  · exact h
  · exact List.mem_cons_of_mem n h

theorem filterStep_include_mono {f : Filter} {m : String} (p : String)
    (h : m ∈ f.includeSet) : m ∈ (filterStep f p).includeSet := by
  simp only [filterStep]
  split
  · exact setInsert_mono _ h
  · exact h

theorem filterStep_exclude_mono {f : Filter} {m : String} (p : String)
    (h : m ∈ f.excludeSet) : m ∈ (filterStep f p).excludeSet := by
  simp only [filterStep]
  split
  · exact h
  · exact setInsert_mono _ h

theorem newFilterAux_include_mono {m : String} (names : List String) :
    ∀ f : Filter, m ∈ f.includeSet → m ∈ (newFilterAux f names).includeSet := by
  induction names with
  | nil => exact fun f h => h
  | cons p rest ih => exact fun f h => ih _ (filterStep_include_mono p h)

theorem newFilterAux_exclude_mono {m : String} (names : List String) :
    ∀ f : Filter, m ∈ f.excludeSet → m ∈ (newFilterAux f names).excludeSet := by
  induction names with
  | nil => exact fun f h => h
  | cons p rest ih => exact fun f h => ih _ (filterStep_exclude_mono p h)

theorem newFilterAux_mem (names : List String) (p : String) :
    ∀ f : Filter, p ∈ names →
      (countLeading p '!' % 2 = 0 →
        dropChars p (countLeading p '!') ∈ (newFilterAux f names).includeSet)
      ∧ (countLeading p '!' % 2 ≠ 0 →
        dropChars p (countLeading p '!') ∈ (newFilterAux f names).excludeSet) := by
  induction names with
  | nil => exact fun f hp => absurd hp (List.not_mem_nil p)
  | cons q rest ih =>
    intro f hp
    simp only [newFilterAux]
    rcases List.mem_cons.mp hp with h | h
    · subst h
      constructor
      · intro he
        apply newFilterAux_include_mono
        simp [filterStep, he, setInsert_self]
      · intro ho
        apply newFilterAux_exclude_mono
        simp [filterStep, ho, setInsert_self]
    · exact ih (filterStep f q) h

theorem filterMatches_iff (f : Filter) (name : String) :
    filterMatches f name = true
      ↔ ((f.includeSet = [] ∨ name ∈ f.includeSet) ∧ name ∉ f.excludeSet) := by
  unfold filterMatches
  by_cases h1 : f.includeSet.length ≠ 0 ∧ name ∉ f.includeSet
  · rw [if_pos h1]
    simp only [Bool.false_eq_true, false_iff]
    rintro ⟨he | hm, -⟩
    · exact h1.1 (by simp [he])
    · exact h1.2 hm
  · rw [if_neg h1]
    by_cases h2 : f.excludeSet.length ≠ 0 ∧ name ∈ f.excludeSet
    · rw [if_pos h2]
      simp only [Bool.false_eq_true, false_iff]
      rintro ⟨-, hex⟩
      exact hex h2.2
    · rw [if_neg h2]
      simp only [true_iff]
      constructor
      · rcases Decidable.not_and_iff_or_not.mp h1 with hl | hm
        · exact Or.inl (List.length_eq_zero.mp (Decidable.not_not.mp hl))
        · exact Or.inr (Decidable.not_not.mp hm)
      · intro hex
        rcases Decidable.not_and_iff_or_not.mp h2 with hl | hm
        · have : f.excludeSet = [] := List.length_eq_zero.mp (Decidable.not_not.mp hl)
          rw [this] at hex
          exact List.not_mem_nil name hex
        · exact hm hex

/-! ### Claim C2 — the compiled Name Filter -/

/-- C2: the filter splits each pattern by the parity of its leading `!` count
(even to the include set, odd to the exclude set); `matches name` holds iff
the include set is empty or contains the name, and the exclude set does not
contain it; with an empty pattern list every name matches. -/
theorem C2_theorem (names : List String) (p name : String) (hp : p ∈ names) :
    (countLeading p '!' % 2 = 0 →
        dropChars p (countLeading p '!') ∈ (NewFilter names).includeSet)
      ∧ (countLeading p '!' % 2 ≠ 0 →
        dropChars p (countLeading p '!') ∈ (NewFilter names).excludeSet)
      ∧ (filterMatches (NewFilter names) name = true
          ↔ (((NewFilter names).includeSet = [] ∨ name ∈ (NewFilter names).includeSet)
              ∧ name ∉ (NewFilter names).excludeSet))
      ∧ filterMatches (NewFilter []) name = true :=
  ⟨(newFilterAux_mem names p ⟨[], []⟩ hp).1,
   (newFilterAux_mem names p ⟨[], []⟩ hp).2,
   filterMatches_iff (NewFilter names) name,
   rfl⟩

/-- C2 witness: the pattern list `["!!a", "!b"]` routes `"!b"` (one marker,
odd) to the exclude set, and the matches characterization holds for `"a"`. -/
theorem C2_witness :
    ("!b" ∈ ["!!a", "!b"])
      ∧ ((countLeading "!b" '!' % 2 = 0 →
            dropChars "!b" (countLeading "!b" '!') ∈ (NewFilter ["!!a", "!b"]).includeSet)
         ∧ (countLeading "!b" '!' % 2 ≠ 0 →
            dropChars "!b" (countLeading "!b" '!') ∈ (NewFilter ["!!a", "!b"]).excludeSet)
         ∧ (filterMatches (NewFilter ["!!a", "!b"]) "a" = true
             ↔ (((NewFilter ["!!a", "!b"]).includeSet = []
                  ∨ "a" ∈ (NewFilter ["!!a", "!b"]).includeSet)
                 ∧ "a" ∉ (NewFilter ["!!a", "!b"]).excludeSet))
         ∧ filterMatches (NewFilter []) "a" = true) :=
  ⟨by decide, C2_theorem ["!!a", "!b"] "!b" "a" (by decide)⟩

/-! ### Claim C10 — the empty pattern poisons the include set -/

/-- C10: a pattern list containing the empty string puts the empty string in
the include set, which is then non-empty, so every name outside the include
set is rejected; the filter built from the single pattern `""` accepts exactly
the empty name. -/
theorem C10_theorem (names : List String) (name : String) (h0 : "" ∈ names)
    (hn : name ∉ (NewFilter names).includeSet) :
    "" ∈ (NewFilter names).includeSet
      ∧ (NewFilter names).includeSet ≠ []
      ∧ filterMatches (NewFilter names) name = false
      ∧ filterMatches (NewFilter [""]) name = decide (name = "") := by
  have hc : countLeading "" '!' % 2 = 0 := by decide
  have hd : dropChars "" (countLeading "" '!') = "" := by decide
  have h := (newFilterAux_mem names "" ⟨[], []⟩ h0).1 hc
  rw [hd] at h
  have hne : (NewFilter names).includeSet ≠ [] := List.ne_nil_of_mem h
  refine ⟨h, hne, ?_, ?_⟩
  · unfold filterMatches
    have hlen : (NewFilter names).includeSet.length ≠ 0 := by
      intro h0'
      exact hne (List.length_eq_zero.mp h0')
    rw [if_pos ⟨hlen, hn⟩]
  · by_cases he : name = ""
    · subst he
      decide
    · have hdec : decide (name = "") = false := by simp [he]
      rw [hdec]
      have hred : NewFilter [""] = ⟨[""], []⟩ := by decide
      unfold filterMatches
      rw [hred]
      rw [if_pos ⟨by decide, fun hm => he (by simpa using hm)⟩]

/-- C10 witness: the filter built from the single pattern `""` rejects the
non-empty name `"x"`. -/
theorem C10_witness :
    ("" ∈ [""])
      ∧ ("x" ∉ (NewFilter [""]).includeSet)
      ∧ ("" ∈ (NewFilter [""]).includeSet
         ∧ (NewFilter [""]).includeSet ≠ []
         ∧ filterMatches (NewFilter [""]) "x" = false
         ∧ filterMatches (NewFilter [""]) "x" = decide ("x" = "")) :=
  ⟨by decide, by decide, C10_theorem [""] "x" (by decide) (by decide)⟩

/-! ### Claim C4 — watch-open failure handling -/

/-- C4: in the connect phase of `watchResource`, any number of "not found"
failures retry (after the fixed one-second poll interval) without changing the
loop's eventual outcome or logging; a "method not supported" failure stops the
loop silently; any other failure stops it with exactly one logged error; the
poll observing cancellation stops it silently. -/
theorem C4_theorem (n : Nat) (rest tail : List (Option WatchError)) (msg : String) :
    watchConnect (List.replicate n (some .notFound) ++ rest) = watchConnect rest
      ∧ watchConnect (some .methodNotSupported :: tail) = .stopped false
      ∧ watchConnect (some (.other msg) :: tail) = .stopped true
      ∧ watchConnect (some .waitTimeout :: tail) = .stopped false
      ∧ watchPollIntervalSeconds = 1 := by
  refine ⟨?_, rfl, rfl, rfl, rfl⟩
  induction n with
  | zero => rfl
  | succ k ih =>
    rw [List.replicate_succ, List.cons_append]
    exact ih

/-! ### Claim C6 — drain completeness on shutdown -/

theorem flushEvents_eq_map (F : Event → String) (buf : List Event) :
    flushEvents F buf = buf.map F := by
  induction buf with
  | nil => rfl
  | cons e rest ih => simp [flushEvents, ih]

/-- C6: with exactly `N` events buffered at cancellation and no later sends,
the non-blocking drain prints exactly those `N` events (no more, no fewer) and
terminates, and the epilogue is printed only after all of them. -/
theorem C6_theorem (F : EventFormatter) (buf : List Event) (N : Nat)
    (h : buf.length = N) :
    (flushEvents F.Format buf).length = N
      ∧ flushEvents F.Format buf = buf.map F.Format
      ∧ mainShutdown F buf = buf.map F.Format ++ [F.Epilogue] := by
  have hm := flushEvents_eq_map F.Format buf
  refine ⟨?_, hm, ?_⟩
  · rw [hm, List.length_map, h]
  · simp [mainShutdown, hm]

/-- C6 witness: two buffered events are drained as exactly two prints followed
by the epilogue. -/
theorem C6_witness :
    ([(⟨0, "k", "d"⟩ : Event), ⟨1, "k2", "d2"⟩].length = 2)
      ∧ ((flushEvents TraceEventFormatter.Format [⟨0, "k", "d"⟩, ⟨1, "k2", "d2"⟩]).length = 2
         ∧ flushEvents TraceEventFormatter.Format [⟨0, "k", "d"⟩, ⟨1, "k2", "d2"⟩]
             = [(⟨0, "k", "d"⟩ : Event), ⟨1, "k2", "d2"⟩].map TraceEventFormatter.Format
         ∧ mainShutdown TraceEventFormatter [⟨0, "k", "d"⟩, ⟨1, "k2", "d2"⟩]
             = [(⟨0, "k", "d"⟩ : Event), ⟨1, "k2", "d2"⟩].map TraceEventFormatter.Format
               ++ [TraceEventFormatter.Epilogue]) :=
  ⟨rfl, C6_theorem TraceEventFormatter [⟨0, "k", "d"⟩, ⟨1, "k2", "d2"⟩] 2 rfl⟩

/-! ### Claim C7 — the derived ObjectKey -/

theorem strLength_ne_zero_iff (s : String) : s.length ≠ 0 ↔ s ≠ "" := by
  obtain ⟨data⟩ := s
  show data.length ≠ 0 ↔ _
  rw [ne_eq, ne_eq, String.ext_iff]
  show ¬data.length = 0 ↔ ¬data = ([] : List Char)
  rw [List.length_eq_zero]

/-- C7: the ObjectKey is namespace plus `/` (omitted when the namespace is
empty), the name, a space, the apiVersion plus `/` (omitted when empty), and
the lowercased kind; for `{ns: a, name: x, kind: Widget}` with empty
apiVersion it is `"a/x widget"`. -/
theorem C7_theorem (o : Unstructured) :
    getKey o = (if o.ns = "" then "" else o.ns ++ "/") ++ o.name ++ " "
        ++ (if o.apiVersion = "" then "" else o.apiVersion ++ "/")
        ++ strToLower o.kind
      ∧ getKey ⟨"a", "x", "", "Widget", []⟩ = "a/x widget" := by
  constructor
  · simp only [getKey, strLength_ne_zero_iff, ne_eq, ite_not]
  · decide

/-! ### Claim C8 — the structured (trace) output format -/

/-- C8: the trace formatter's preamble is `"[\n"` and its epilogue `"]\n"`;
each event renders as exactly one record terminated by a comma (and newline)
containing the microsecond timestamp, the quoted key, and the quoted diff
text; with zero events the output is still the preamble followed by the
epilogue. -/
theorem C8_theorem (e : Event) :
    TraceEventFormatter.Preamble = "[\n"
      ∧ TraceEventFormatter.Epilogue = "]\n"
      ∧ (∃ record, TraceEventFormatter.Format e = record ++ ",\n"
          ∧ (∃ a b, record = a ++ goFloatMicros e.Timestamp ++ b)
          ∧ (∃ a b, record = a ++ goQuote e.Name ++ b)
          ∧ (∃ a b, record = a ++ goQuote e.Data ++ b))
      ∧ mainOutput TraceEventFormatter [] [] = "[\n" ++ "]\n" := by
  refine ⟨rfl, rfl, ?_, by decide⟩
  refine ⟨"\x7b\"ts\": " ++ goFloatMicros e.Timestamp ++ ", \"name\": "
      ++ goQuote e.Name
      ++ ", \"ph\": \"i\", \"pid\": 1, \"tid\": 1, \"s\": \"t\", \"args\": ["
      ++ goQuote e.Data ++ "]\x7d", ?_, ?_, ?_, ?_⟩
  · have h1 : ("]\x7d,\n" : String) = "]\x7d" ++ ",\n" := by decide
    simp only [TraceEventFormatter]
    rw [h1]
    simp [String.append_assoc]
  · refine ⟨"\x7b\"ts\": ", ", \"name\": " ++ goQuote e.Name
      ++ ", \"ph\": \"i\", \"pid\": 1, \"tid\": 1, \"s\": \"t\", \"args\": ["
      ++ goQuote e.Data ++ "]\x7d", ?_⟩
    simp [String.append_assoc]
  · refine ⟨"\x7b\"ts\": " ++ goFloatMicros e.Timestamp ++ ", \"name\": ",
      ", \"ph\": \"i\", \"pid\": 1, \"tid\": 1, \"s\": \"t\", \"args\": ["
      ++ goQuote e.Data ++ "]\x7d", ?_⟩
    simp [String.append_assoc]
  · refine ⟨"\x7b\"ts\": " ++ goFloatMicros e.Timestamp ++ ", \"name\": "
      ++ goQuote e.Name
      ++ ", \"ph\": \"i\", \"pid\": 1, \"tid\": 1, \"s\": \"t\", \"args\": [",
      "]\x7d", ?_⟩
    simp [String.append_assoc]

end KubectlWatch
